import Mathlib

/-!
# VoteApp poll/vote state engine — formal model

Shallow embedding of the core state engine of `src/src/VoteApp.tsx`:
the data model (`Option`, `Poll`, the vote ledger), the state-mutating
operations `createPoll`, `vote`, `deletePoll`, the derived views
(`filtered`, `totalVotes`, `pct`) and the persistence helpers
(`loadPolls`/`savePolls`/`loadVotes`/`saveVotes`).

Modelling conventions:
* JavaScript strings are Lean `String`s; `String.prototype.trim` is
  modelled by `jsTrim` (drop whitespace from both ends) and
  `toLowerCase` by `jsToLower` (characterwise lowering), defined over
  the character list so that they evaluate inside proofs.
* A JS `Record<string, string>` (the vote ledger) is modelled as an
  association list with JS object semantics: lookup finds the first
  (unique) matching key, assignment overwrites in place or appends,
  `delete` removes the key.
* `uid()` (line 61 of the source) draws eight random base-36 characters;
  freshness, which the source assumes (spec section 4.1: collisions are a
  theoretical, not practical, risk), is modelled by an injective function
  of a per-state fresh counter `nextId`.
* `Date.now()` is modelled by an ambient clock field `now`.
* The fire-and-forget `api.createPoll` / `api.vote` calls never touch
  local state (source lines 67-70) and are therefore not part of the
  state transition.
* JS numbers are IEEE-754 binary64; the one place the core does
  non-integral arithmetic (`pct`, source line 378) is modelled by exact
  dyadic rationals with round-to-nearest-even after each operation.
-/

/-- One selectable answer inside a poll; source `interface Option`
(line 49).  Named `Opt` here because `Option` is taken by Lean's core
option type. -/
structure Opt where
  id : String
  text : String
  votes : Nat
deriving Repr, DecidableEq, Inhabited

/-- A poll; source `interface Poll` (line 50).  `description` is an
optional field (`none` = absent/undefined); `imageUrl` is
`string | null`, with `none` standing for `null`. -/
structure Poll where
  id : String
  question : String
  description : Option String
  options : List Opt
  category : String
  createdAt : Nat
  imageUrl : Option String
deriving Repr, DecidableEq, Inhabited

/-- The in-memory state of the Poll Store component: the poll collection
(`polls` state hook, line 157), the vote ledger (`votes` hook, line 158,
a `Record<string, string>` mapping poll id to chosen option id), plus
the fresh-identifier counter and the ambient clock used to model
`uid()` and `Date.now()`. -/
structure AppState where
  polls : List Poll
  votes : List (String × String)
  nextId : Nat
  now : Nat
deriving Repr, DecidableEq

/-- The draft passed to `createPoll` (a TS `Partial<Poll>`): every field
may be absent.  Only the `text` field of each draft option is read by
`createPoll` (line 174). -/
structure Draft where
  question : Option String
  options : Option (List Opt)
  description : Option String
  category : Option String
  imageUrl : Option String

/-- Fresh identifier for counter value `n`; stands for the `uid()` call
(line 61).  Any injective function models the assumed freshness of the
random ids. -/
def uid (n : Nat) : String := ⟨List.replicate (n + 1) 'i'⟩

/-- JS `String.prototype.trim`: remove whitespace from both ends. -/
def jsTrim (s : String) : String :=
  ⟨((s.data.dropWhile Char.isWhitespace).reverse.dropWhile Char.isWhitespace).reverse⟩

/-- JS `String.prototype.toLowerCase`, characterwise. -/
def jsToLower (s : String) : String := ⟨s.data.map Char.toLower⟩

/-- JS object property read `votes[pollId]`: first (unique) binding of
the key, if any. -/
def lookup : List (String × String) → String → Option String
  | [], _ => none
  | (k', v) :: rest, k => if k' = k then some v else lookup rest k

/-- JS object property write `{ ...prev, [pollId]: optionId }`:
overwrite an existing binding in place, else append a new one. -/
def setKey : List (String × String) → String → String → List (String × String)
  | [], k, v => [(k, v)]
  | (k', v') :: rest, k, v =>
    if k' = k then (k, v) :: rest else (k', v') :: setKey rest k v

/-- JS `delete v[pollId]`: drop the binding of the key. -/
def eraseKey (l : List (String × String)) (k : String) : List (String × String) :=
  l.filter (fun kv => kv.1 != k)

/-- JS truthiness of the string-or-undefined value `votes[pollId]`:
an absent binding and the empty string are both falsy. -/
def truthy : Option String → Bool
  | none => false
  | some s => s != ""

/-- The `cleanOptions` local of `createPoll` (source line 174):
`input.options.map(o => ({id: uid(), text: o.text, votes: 0}))
              .filter(o => o.text.trim().length > 0)` —
a fresh id is assigned to every raw option, then the options whose
trimmed text is empty are dropped; the stored text stays untrimmed. -/
def cleanOptions (s : AppState) (opts : List Opt) : List Opt :=
  (opts.enum.map (fun io =>
    { id := uid (s.nextId + io.1), text := io.2.text, votes := 0 })).filter
    (fun o => 0 < (jsTrim o.text).length)

/-- The `newPoll` local of `createPoll` (source line 175): fresh id,
trimmed question and description, `cleanOptions`, category defaulting to
`"General"` when absent or empty (`input.category || "General"`),
current time, and `input.imageUrl || null`. -/
def newPoll (s : AppState) (input : Draft) (q : String) (opts : List Opt) : Poll :=
  { id := uid (s.nextId + opts.length)
    question := jsTrim q
    description := input.description.map jsTrim
    options := cleanOptions s opts
    category :=
      match input.category with
      | some c => if c = "" then "General" else c
      | none => "General"
    createdAt := s.now
    imageUrl :=
      match input.imageUrl with
      | some u => if u = "" then none else some u
      | none => none }

/-- `createPoll(input)` (source lines 172-178).  The guard is
`!input.question || !input.options || input.options.length < 2`
(an empty-string question is falsy; the raw option count is tested
before blank options are dropped).  On success the new poll is
prepended; `uid` is called once per raw option and once for the poll
id. -/
def createPoll (s : AppState) (input : Draft) : AppState :=
  match input.question, input.options with
  | some q, some opts =>
    if q = "" ∨ opts.length < 2 then s
    else
      { s with
        polls := newPoll s input q opts :: s.polls
        nextId := s.nextId + opts.length + 1 }
  | _, _ => s

/-- `vote(pollId, optionId)` (source lines 180-185).  Guard:
`if (votes[pollId]) return;` — a truthiness test.  Otherwise every poll
whose id matches gets the votes of every option whose id matches bumped
by one, and `pollId -> optionId` is recorded in the ledger. -/
def vote (s : AppState) (pollId optionId : String) : AppState :=
  if truthy (lookup s.votes pollId) then s
  else
    { s with
      polls := s.polls.map (fun p =>
        if p.id ≠ pollId then p
        else { p with options := p.options.map (fun o =>
          if o.id = optionId then { o with votes := o.votes + 1 } else o) })
      votes := setKey s.votes pollId optionId }

/-- `deletePoll(pollId)` (source line 187): filter the poll out of the
collection and delete its ledger binding, in one state transition. -/
def deletePoll (s : AppState) (pollId : String) : AppState :=
  { s with
    polls := s.polls.filter (fun p => p.id != pollId)
    votes := eraseKey s.votes pollId }

/-- `totalVotes` (source line 377):
`poll.options.reduce((a, b) => a + b.votes, 0)`. -/
def totalVotes (p : Poll) : Nat :=
  p.options.foldl (fun a o => a + o.votes) 0

/-- One user-facing mutation of the Poll Store. -/
inductive Op where
  | create (d : Draft)
  | castVote (pollId optionId : String)
  | remove (pollId : String)

/-- Apply one mutation. -/
def applyOp (s : AppState) : Op → AppState
  | Op.create d => createPoll s d
  | Op.castVote pid oid => vote s pid oid
  | Op.remove pid => deletePoll s pid

/-- Run a sequence of mutations. -/
def runOps (s : AppState) (ops : List Op) : AppState :=
  ops.foldl applyOp s

/-- The empty initial state (empty poll collection, empty ledger). -/
def initState : AppState := { polls := [], votes := [], nextId := 0, now := 0 }

/-- `pat` occurs at the start of `s` (helper for JS
`String.prototype.includes`). -/
def listPre : List Char → List Char → Bool
  | [], _ => true
  | _ :: _, [] => false
  | a :: pat, b :: s => a == b && listPre pat s

/-- `pat` occurs somewhere in `s`. -/
def listSub (pat : List Char) : List Char → Bool
  | [] => listPre pat []
  | b :: s => listPre pat (b :: s) || listSub pat s

/-- JS `s.includes(pat)`: substring containment. -/
def jsIncludes (s pat : String) : Bool := listSub pat.data s.data

/-- The `filtered` derivation (source line 170):
`polls.filter(p => categoryFilter === "All" || p.category === categoryFilter)
      .filter(p => p.question.toLowerCase().includes(query.toLowerCase()))`. -/
def filtered (polls : List Poll) (categoryFilter query : String) : List Poll :=
  (polls.filter (fun p => categoryFilter == "All" || p.category == categoryFilter)).filter
    (fun p => jsIncludes (jsToLower p.question) (jsToLower query))

/-- Floor of the base-2 logarithm of `n` (for `n ≥ 1`), fuel-driven so
that it reduces structurally. -/
def flogF : Nat → Nat → Nat
  | 0, _ => 0
  | fuel + 1, n => if n < 2 then 0 else flogF fuel (n / 2) + 1

/-- Floor of the base-2 logarithm of `n ≥ 1`. -/
def flog (n : Nat) : Nat := flogF n n

/-- Round the non-negative rational `num / den` to the nearest integer,
ties to even (the IEEE-754 default rounding). -/
def rndNE (num den : Nat) : Nat :=
  let q := num / den
  let r := num % den
  if den < 2 * r then q + 1
  else if 2 * r < den then q
  else if q % 2 = 0 then q else q + 1

/-- The binary64 value nearest to the positive rational `num / den`
(round to nearest, ties to even), as a dyadic pair `(m, e)` denoting
`m * 2 ^ e`.  Valid on the normal range, which covers every quantity
`pct` manipulates. -/
def flPos (num den : Nat) : Nat × Int :=
  let a : Int := flog num
  let b : Int := flog den
  let k : Int := a - b
  let ge : Bool :=
    if 0 ≤ k then den * 2 ^ k.toNat ≤ num else den ≤ num * 2 ^ (-k).toNat
  let e : Int := if ge then k else k - 1
  let s : Int := 52 - e
  let m : Nat :=
    if 0 ≤ s then rndNE (num * 2 ^ s.toNat) den
    else rndNE num (den * 2 ^ (-s).toNat)
  (m, e - 52)

/-- Re-round an exact positive dyadic value `m * 2 ^ e` to binary64. -/
def flDyadic (m : Nat) (e : Int) : Nat × Int :=
  if 0 ≤ e then flPos (m * 2 ^ e.toNat) 1 else flPos m (2 ^ (-e).toNat)

/-- ES `Math.round` on the non-negative dyadic value `m * 2 ^ e`:
the closest integer, ties toward plus infinity, i.e.
`⌊m * 2 ^ e + 1 / 2⌋`. -/
def jsRoundPos (m : Nat) (e : Int) : Nat :=
  if 0 ≤ e then m * 2 ^ e.toNat
  else
    let den := 2 ^ (-e).toNat
    (m + den / 2) / den

/-- The result calculator `pct` (source line 378):
`(v) => totalVotes ? Math.round((v / totalVotes) * 100) : 0`, computed
in binary64: the division and the multiplication are each correctly
rounded to the nearest double, then `Math.round` takes the closest
integer (ties up) of the exact value of that double.  Assumes
`v`, `t < 2 ^ 53` so that both arguments are exact doubles (true of all
reachable vote counts). -/
def pct (v t : Nat) : Nat :=
  if t = 0 then 0
  else if v = 0 then 0
  else
    let d1 := flPos v t
    let d2 := flDyadic (d1.1 * 100) d1.2
    jsRoundPos d2.1 d2.2

/-- The spec's description of the result calculator (section 4.6):
`round(optionVotes / totalVotes * 100)` on exact rationals, ties
half-up, and `0` when `totalVotes = 0`.  Written from the spec's words,
for comparison with the source-derived `pct`. -/
def pctSpec (v t : Nat) : Nat :=
  if t = 0 then 0 else (200 * v + t) / (2 * t)

/-- A parsed JSON value.  Numbers are restricted to the integers, which
covers every number the poll store serializes (`votes`, `createdAt`). -/
inductive Json where
  | null : Json
  | bool : Bool → Json
  | num : Int → Json
  | str : String → Json
  | arr : List Json → Json
  | obj : List (String × Json) → Json

/-- What a stored `localStorage` string parses to: either it is not
syntactically valid JSON (`JSON.parse` throws), or it denotes a JSON
value.  `JSON.stringify` of a value produces text that parses back to
that same value, so storing text parsing to `j` models storing
`JSON.stringify`'s output for `j`. -/
inductive StoredText where
  | unparseable : StoredText
  | parsed : Json → StoredText

/-- The local durable store: the two `localStorage` keys
`voteapp_polls_v1` and `voteapp_votes_v1` (source lines 53-54), each
either absent (`getItem` returns `null`) or holding text. -/
structure Storage where
  pollsKey : Option StoredText
  votesKey : Option StoredText

/-- `JSON.stringify` of an option object. -/
def encodeOpt (o : Opt) : Json :=
  Json.obj [("id", Json.str o.id), ("text", Json.str o.text),
    ("votes", Json.num o.votes)]

/-- `JSON.stringify` of a poll object: fields in declaration order, the
optional `description` omitted when absent, `imageUrl: null` encoded as
JSON `null`. -/
def encodePoll (p : Poll) : Json :=
  Json.obj ([("id", Json.str p.id), ("question", Json.str p.question)] ++
    (match p.description with
     | some d => [("description", Json.str d)]
     | none => []) ++
    [("options", Json.arr (p.options.map encodeOpt)),
     ("category", Json.str p.category),
     ("createdAt", Json.num p.createdAt),
     ("imageUrl", match p.imageUrl with
       | some u => Json.str u
       | none => Json.null)])

/-- `JSON.stringify` of the poll collection. -/
def encodePolls (polls : List Poll) : Json :=
  Json.arr (polls.map encodePoll)

/-- `JSON.stringify` of the vote ledger object. -/
def encodeVotes (l : List (String × String)) : Json :=
  Json.obj (l.map (fun kv => (kv.1, Json.str kv.2)))

/-- `loadPolls()` (source line 55): absent key gives `[]`; text that
fails `JSON.parse` gives `[]` (the `catch`); otherwise the parsed value
is returned as-is — the `as Poll[]` cast performs no validation. -/
def loadPolls (st : Storage) : Json :=
  match st.pollsKey with
  | none => Json.arr []
  | some StoredText.unparseable => Json.arr []
  | some (StoredText.parsed j) => j

/-- `savePolls(polls)` (source line 56): overwrite the polls key with
`JSON.stringify(polls)`. -/
def savePolls (polls : List Poll) (st : Storage) : Storage :=
  { st with pollsKey := some (StoredText.parsed (encodePolls polls)) }

/-- `loadVotes()` (source line 57), symmetric to `loadPolls`. -/
def loadVotes (st : Storage) : Json :=
  match st.votesKey with
  | none => Json.obj []
  | some StoredText.unparseable => Json.obj []
  | some (StoredText.parsed j) => j

/-- `saveVotes(v)` (source line 58). -/
def saveVotes (l : List (String × String)) (st : Storage) : Storage :=
  { st with votesKey := some (StoredText.parsed (encodeVotes l)) }

/-- Key lookup in a parsed JSON object. -/
def jlookup : List (String × Json) → String → Option Json
  | [], _ => none
  | (k', v) :: rest, k => if k' = k then some v else jlookup rest k

/-- Read an option record back from JSON. -/
def decodeOpt (j : Json) : Option Opt :=
  match j with
  | Json.obj fs =>
    match jlookup fs "id", jlookup fs "text", jlookup fs "votes" with
    | some (Json.str i), some (Json.str t), some (Json.num n) =>
      some { id := i, text := t, votes := n.toNat }
    | _, _, _ => none
  | _ => none

/-- Read a list of option records back from JSON values. -/
def decodeOptList : List Json → Option (List Opt)
  | [] => some []
  | j :: rest =>
    match decodeOpt j, decodeOptList rest with
    | some o, some os => some (o :: os)
    | _, _ => none

/-- Read a poll record back from JSON. -/
def decodePoll (j : Json) : Option Poll :=
  match j with
  | Json.obj fs =>
    match jlookup fs "id", jlookup fs "question", jlookup fs "options",
      jlookup fs "category", jlookup fs "createdAt" with
    | some (Json.str i), some (Json.str q), some (Json.arr os),
      some (Json.str c), some (Json.num n) =>
      match decodeOptList os with
      | some opts =>
        some { id := i, question := q
               description :=
                 match jlookup fs "description" with
                 | some (Json.str d) => some d
                 | _ => none
               options := opts, category := c, createdAt := n.toNat
               imageUrl :=
                 match jlookup fs "imageUrl" with
                 | some (Json.str u) => some u
                 | _ => none }
      | none => none
    | _, _, _, _, _ => none
  | _ => none

/-- Read a list of poll records back from JSON values. -/
def decodePollList : List Json → Option (List Poll)
  | [] => some []
  | j :: rest =>
    match decodePoll j, decodePollList rest with
    | some p, some ps => some (p :: ps)
    | _, _ => none

/-- Interpret a JSON value as a poll collection, if it has that shape. -/
def decodePolls (j : Json) : Option (List Poll) :=
  match j with
  | Json.arr l => decodePollList l
  | _ => none

/-- Read the ledger bindings back from JSON object fields. -/
def decodeVoteList : List (String × Json) → Option (List (String × String))
  | [] => some []
  | (k, Json.str v) :: rest =>
    match decodeVoteList rest with
    | some l => some ((k, v) :: l)
    | none => none
  | _ :: _ => none

/-- Interpret a JSON value as a vote ledger, if it has that shape. -/
def decodeVotes (j : Json) : Option (List (String × String)) :=
  match j with
  | Json.obj fs => decodeVoteList fs
  | _ => none

/-! ## Helper lemmas -/

theorem uid_injective : Function.Injective uid := by
  intro m n h
  have hd : (uid m).data = (uid n).data := congrArg String.data h
  simp only [uid] at hd
  have hl := congrArg List.length hd
  simp only [List.length_replicate] at hl
  omega

theorem lookup_setKey_self (l : List (String × String)) (k v : String) :
    lookup (setKey l k v) k = some v := by
  induction l with
  | nil => simp [setKey, lookup]
  | cons kv rest ih =>
    obtain ⟨k', v'⟩ := kv
    by_cases hk : k' = k
    · simp [setKey, hk, lookup]
    · simp [setKey, hk, lookup, ih]

theorem lookup_setKey_of_ne (l : List (String × String)) (k v k' : String)
    (h : k' ≠ k) : lookup (setKey l k v) k' = lookup l k' := by
  induction l with
  | nil => simp [setKey, lookup, Ne.symm h]
  | cons kv rest ih =>
    obtain ⟨k'', v''⟩ := kv
    by_cases hk : k'' = k
    · subst hk
      simp [setKey, lookup, Ne.symm h]
    · simp [setKey, hk, lookup, ih]

theorem lookup_eraseKey_self (l : List (String × String)) (k : String) :
    lookup (eraseKey l k) k = none := by
  induction l with
  | nil => simp [eraseKey, lookup]
  | cons kv rest ih =>
    obtain ⟨k', v'⟩ := kv
    by_cases hk : k' = k
    · simpa [eraseKey, hk] using ih
    · simpa [eraseKey, hk, lookup] using ih

theorem lookup_eraseKey_of_ne (l : List (String × String)) (k k' : String)
    (h : k' ≠ k) : lookup (eraseKey l k) k' = lookup l k' := by
  induction l with
  | nil => simp [eraseKey, lookup]
  | cons kv rest ih =>
    obtain ⟨k'', v''⟩ := kv
    simp only [eraseKey] at ih ⊢
    by_cases hk : k'' = k
    · subst hk
      simp only [List.filter_cons, bne_self_eq_false, Bool.false_eq_true, if_false]
      rw [ih]
      simp [lookup, Ne.symm h]
    · have hb : (k'' != k) = true := by simpa using hk
      simp only [List.filter_cons, hb, if_true]
      simp [lookup, ih]

theorem eraseKey_eraseKey (l : List (String × String)) (k : String) :
    eraseKey (eraseKey l k) k = eraseKey l k := by
  induction l with
  | nil => simp [eraseKey]
  | cons kv rest ih =>
    by_cases hk : kv.1 = k
    · simp only [eraseKey] at ih ⊢
      simp [List.filter_cons, hk, ih]
    · simp only [eraseKey] at ih ⊢
      simp [List.filter_cons, hk, ih]

theorem eraseKey_of_lookup_none (l : List (String × String)) (k : String)
    (h : lookup l k = none) : eraseKey l k = l := by
  induction l with
  | nil => simp [eraseKey]
  | cons kv rest ih =>
    obtain ⟨k', v'⟩ := kv
    by_cases hk : k' = k
    · simp [lookup, hk] at h
    · simp only [lookup, if_neg hk] at h
      simp [eraseKey, hk] at ih ⊢
      exact ih h

theorem foldlVotes (l : List Opt) (a : Nat) :
    l.foldl (fun a o => a + o.votes) a = a + (l.map Opt.votes).sum := by
  induction l generalizing a with
  | nil => simp
  | cons o rest ih => simp [List.foldl_cons, ih]; omega

theorem sum_map_bump (oid : String) (l : List Opt) :
    (l.map (fun o =>
        ((if o.id = oid then { o with votes := o.votes + 1 } else o) : Opt).votes)).sum
      = (l.map Opt.votes).sum + l.countP (fun o => o.id == oid) := by
  induction l with
  | nil => simp
  | cons o rest ih =>
    by_cases h : o.id = oid
    · simp only [List.map_cons, List.sum_cons, if_pos h, ih, List.countP_cons]
      simp [h]
      omega
    · simp only [List.map_cons, List.sum_cons, if_neg h, ih, List.countP_cons]
      simp [h]
      omega

theorem listPre_iff (pat s : List Char) : listPre pat s = true ↔ pat <+: s := by
  induction pat generalizing s with
  | nil => simp [listPre]
  | cons a pat ih =>
    cases s with
    | nil => simp [listPre]
    | cons b s => simp [listPre, Bool.and_eq_true, beq_iff_eq, ih, List.cons_prefix_cons]

theorem listSub_iff (pat s : List Char) : listSub pat s = true ↔ pat <:+: s := by
  induction s with
  | nil =>
    rw [listSub, listPre_iff]
    simp
  | cons b s ih =>
    rw [listSub]
    simp [Bool.or_eq_true, listPre_iff, ih, List.infix_cons_iff]

theorem vote_of_lookup_none (s : AppState) (pid oid : String)
    (h : lookup s.votes pid = none) :
    vote s pid oid =
      { s with
        polls := s.polls.map (fun p =>
          if p.id ≠ pid then p
          else { p with options := p.options.map (fun o =>
            if o.id = oid then { o with votes := o.votes + 1 } else o) })
        votes := setKey s.votes pid oid } := by
  simp [vote, h, truthy]

theorem vote_of_lookup_some (s : AppState) (pid oid v : String)
    (h : lookup s.votes pid = some v) (hv : v ≠ "") :
    vote s pid oid = s := by
  simp [vote, h, truthy, hv]

/-! ## Claim C1 — createPoll validation -/

/-- Claim C1 counterexample: the claim says `createPoll` rejects the
operation whenever fewer than 2 non-empty options remain after trimming,
but on the draft `{question: "Q", options: ["a", " "]}` (two raw
options, only one non-blank) the code creates a poll — with a single
option. -/
theorem C1_counterexample :
    (createPoll initState
        { question := some "Q", options := some [⟨"", "a", 0⟩, ⟨"", " ", 0⟩],
          description := none, category := none, imageUrl := none }).polls.length = 1 ∧
      (createPoll initState
        { question := some "Q", options := some [⟨"", "a", 0⟩, ⟨"", " ", 0⟩],
          description := none, category := none, imageUrl := none
        }).polls.headI.options.length = 1 := by
  exact ⟨by decide, by decide⟩

/-- Claim C1 (amended): `createPoll` rejects the whole operation (state
unchanged) whenever the question is absent or the empty string, the
options are absent, or fewer than 2 *raw* options are supplied — the
count is taken before blank options are dropped, and a whitespace-only
question is not rejected.  Otherwise it prepends exactly one poll whose
options are the raw options whose trimmed text is non-empty (each with
`votes = 0`), which can leave fewer than 2 options; in particular
`createPoll({question: "Q", options: ["a","b",""]})` creates a poll with
exactly 2 options. -/
theorem C1_amended :
    (∀ (s : AppState) (d : Draft),
        (d.question = none ∨ d.question = some "" ∨ d.options = none ∨
            (d.options.getD []).length < 2) →
          createPoll s d = s) ∧
      (∀ (s : AppState) (d : Draft),
        createPoll s d = s ∨
          ∃ p, (createPoll s d).polls = p :: s.polls ∧
            (createPoll s d).votes = s.votes ∧
            (∀ o ∈ p.options, jsTrim o.text ≠ "" ∧ o.votes = 0) ∧
            p.options.length ≤ (d.options.getD []).length) ∧
      (createPoll initState
        { question := some "Q",
          options := some [⟨"", "a", 0⟩, ⟨"", "b", 0⟩, ⟨"", "", 0⟩],
          description := none, category := none, imageUrl := none
        }).polls.headI.options.length = 2 := by
  refine ⟨?_, ?_, by decide⟩
  · intro s d h
    cases hq : d.question with
    | none => simp [createPoll, hq]
    | some q =>
      cases ho : d.options with
      | none => simp [createPoll, hq, ho]
      | some opts =>
        have hcond : q = "" ∨ opts.length < 2 := by
          rcases h with h | h | h | h
          · rw [hq] at h
            cases h
          · rw [hq] at h
            exact Or.inl (by injection h)
          · rw [ho] at h
            cases h
          · rw [ho] at h
            exact Or.inr (by simpa using h)
        simp only [createPoll, hq, ho, if_pos hcond]
  · intro s d
    cases hq : d.question with
    | none => exact Or.inl (by simp [createPoll, hq])
    | some q =>
      cases ho : d.options with
      | none => exact Or.inl (by simp [createPoll, hq, ho])
      | some opts =>
        by_cases hcond : q = "" ∨ opts.length < 2
        · exact Or.inl (by simp only [createPoll, hq, ho, if_pos hcond])
        · refine Or.inr ⟨newPoll s d q opts, ?_, ?_, ?_, ?_⟩
          · simp only [createPoll, hq, ho, if_neg hcond]
          · simp only [createPoll, hq, ho, if_neg hcond]
          · intro o ho'
            simp only [newPoll, cleanOptions] at ho'
            have hmem := List.mem_filter.mp ho'
            obtain ⟨io, hio, rfl⟩ := List.mem_map.mp hmem.1
            refine ⟨?_, rfl⟩
            have hlen := of_decide_eq_true hmem.2
            intro hzero
            rw [hzero] at hlen
            exact absurd hlen (by decide)
          · simp only [newPoll, cleanOptions]
            refine le_trans (List.length_filter_le _ _) ?_
            simp

/-- Claim C1 witness: a draft with an empty question is rejected. -/
theorem C1_witness :
    createPoll initState
        { question := some "", options := some [⟨"", "a", 0⟩, ⟨"", "b", 0⟩],
          description := none, category := none, imageUrl := none } = initState :=
  C1_amended.1 initState _ (Or.inr (Or.inl rfl))

/-! ## Claim C2 — vote with no matching option -/

/-- Claim C2 counterexample: with an empty collection and empty ledger
(so no poll `"p"` exists and the ledger has no entry), the claim says
`vote("p", "o")` leaves both stores unchanged; in fact the code still
records `"p" -> "o"` in the Vote Ledger. -/
theorem C2_counterexample :
    (vote initState "p" "o").votes ≠ initState.votes ∧
      (vote initState "p" "o").polls = initState.polls ∧
      lookup (vote initState "p" "o").votes "p" = some "o" := by
  exact ⟨by decide, by decide, by decide⟩

/-- Claim C2 (amended): when the Vote Ledger has no entry for `pollId`
and no option with id `optionId` exists inside any poll with id
`pollId` (or no such poll exists), `vote(pollId, optionId)` leaves the
Poll Collection unchanged, but it still records `pollId -> optionId` in
the Vote Ledger (leaving every other ledger entry unchanged). -/
theorem C2_amended (s : AppState) (pid oid : String)
    (hnv : lookup s.votes pid = none)
    (hno : ∀ p ∈ s.polls, p.id = pid → ∀ o ∈ p.options, o.id ≠ oid) :
    (vote s pid oid).polls = s.polls ∧
      lookup (vote s pid oid).votes pid = some oid ∧
      ∀ k, k ≠ pid → lookup (vote s pid oid).votes k = lookup s.votes k := by
  rw [vote_of_lookup_none s pid oid hnv]
  refine ⟨?_, lookup_setKey_self _ _ _, fun k hk => lookup_setKey_of_ne _ _ _ _ hk⟩
  have hid : ∀ p ∈ s.polls,
      (if p.id ≠ pid then p
       else { p with options := p.options.map (fun o =>
         if o.id = oid then { o with votes := o.votes + 1 } else o) }) = p := by
    intro p hp
    by_cases hpid : p.id = pid
    · rw [if_neg (by simp [hpid])]
      have hopts : p.options.map (fun o =>
          if o.id = oid then { o with votes := o.votes + 1 } else o) = p.options :=
        (List.map_congr_left (fun o hmem =>
          if_neg (hno p hp hpid o hmem))).trans (List.map_id' _)
      rw [hopts]
    · rw [if_pos hpid]
  exact (List.map_congr_left hid).trans (List.map_id _)

/-- Claim C2 witness: voting on the empty state. -/
theorem C2_witness :
    (vote initState "p" "o").polls = initState.polls ∧
      lookup (vote initState "p" "o").votes "p" = some "o" ∧
      ∀ k, k ≠ "p" → lookup (vote initState "p" "o").votes k = lookup initState.votes k :=
  C2_amended initState "p" "o" (by decide) (by simp [initState])

/-! ## Claim C3 — double-vote rejection -/

/-- A state whose ledger holds the entry `"p" -> ""`: such an entry can
be produced by the core itself, e.g. by `vote("p", "")` on a fresh
state, since `vote` records its `optionId` argument unconditionally. -/
def stateC3 : AppState :=
  { polls := [{ id := "p", question := "Q", description := none,
                options := [⟨"a", "x", 0⟩], category := "General",
                createdAt := 0, imageUrl := none }],
    votes := [("p", "")], nextId := 0, now := 0 }

/-- Claim C3 counterexample: the claim says that whenever the Vote
Ledger has an entry for `pollId`, any further `vote(pollId, _)` is a
no-op.  But the guard is a JS truthiness test, and the empty string is
falsy: with ledger entry `"p" -> ""` the second vote goes through,
bumping the option's count and overwriting the ledger entry. -/
theorem C3_counterexample :
    lookup stateC3.votes "p" = some "" ∧
      vote stateC3 "p" "a" ≠ stateC3 ∧
      (vote stateC3 "p" "a").polls.headI.options.headI.votes = 1 ∧
      lookup (vote stateC3 "p" "a").votes "p" = some "a" := by
  exact ⟨by decide, by decide, by decide, by decide⟩

/-- Claim C3 (amended): whenever the Vote Ledger entry for `pollId` is a
*non-empty* string — which is every entry the UI can produce by voting
on a real option — `vote(pollId, optionId)` is a no-op for any
`optionId`: it does not error and the state (all vote counts and the
ledger) is unchanged.  An empty-string entry is falsy and is treated as
"not voted yet". -/
theorem C3_amended (s : AppState) (pid oid v : String)
    (h : lookup s.votes pid = some v) (hv : v ≠ "") :
    vote s pid oid = s :=
  vote_of_lookup_some s pid oid v h hv

/-- Claim C3 witness: a ledger entry `"p" -> "x"` blocks a second vote. -/
theorem C3_witness :
    vote { polls := [], votes := [("p", "x")], nextId := 0, now := 0 } "p" "a"
      = { polls := [], votes := [("p", "x")], nextId := 0, now := 0 } :=
  C3_amended _ "p" "a" "x" (by decide) (by decide)

/-! ## Claim C4 — successful vote increments by exactly one -/

/-- Claim C4: when the Vote Ledger has no entry for `pollId` and the
poll (at position `i`) with id `pollId` contains exactly one option with
id `optionId`, `vote(pollId, optionId)` increases that poll's
`totalVotes` by exactly 1 — never more — and records
`pollId -> optionId` in the Vote Ledger. -/
theorem C4_vote_increments (s : AppState) (pid oid : String) (i : Nat)
    (hi : i < s.polls.length) (hledger : lookup s.votes pid = none)
    (hpid : (s.polls.get ⟨i, hi⟩).id = pid)
    (hopt : (s.polls.get ⟨i, hi⟩).options.countP (fun o => o.id == oid) = 1) :
    ∃ hi' : i < (vote s pid oid).polls.length,
      totalVotes ((vote s pid oid).polls.get ⟨i, hi'⟩)
          = totalVotes (s.polls.get ⟨i, hi⟩) + 1 ∧
        lookup (vote s pid oid).votes pid = some oid := by
  have key : ∀ p : Poll, p.options.countP (fun o => o.id == oid) = 1 →
      totalVotes { p with options := p.options.map (fun o =>
        if o.id = oid then { o with votes := o.votes + 1 } else o) } = totalVotes p + 1 := by
    intro p hc
    simp only [totalVotes]
    rw [foldlVotes, foldlVotes, List.map_map]
    have hsum := sum_map_bump oid p.options
    have heq : (List.map (Opt.votes ∘ fun o =>
          if o.id = oid then { o with votes := o.votes + 1 } else o) p.options)
        = (List.map (fun o =>
          ((if o.id = oid then { o with votes := o.votes + 1 } else o) : Opt).votes)
          p.options) := rfl
    rw [heq, hsum, hc]
    omega
  rw [vote_of_lookup_none s pid oid hledger]
  refine ⟨by simpa using hi, ?_, lookup_setKey_self _ _ _⟩
  simp only [List.get_eq_getElem, List.getElem_map]
  rw [if_neg (by simp only [List.get_eq_getElem] at hpid; simp [hpid])]
  exact key _ (by simpa only [List.get_eq_getElem] using hopt)

/-- Claim C4 witness: one poll, one option, a fresh ledger. -/
theorem C4_witness :
    ∃ hi' : 0 < (vote { polls := [{ id := "p", question := "Q", description := none,
                                    options := [⟨"a", "x", 3⟩], category := "General",
                                    createdAt := 0, imageUrl := none }],
                        votes := [], nextId := 0, now := 0 } "p" "a").polls.length,
      totalVotes ((vote { polls := [{ id := "p", question := "Q", description := none,
                                      options := [⟨"a", "x", 3⟩], category := "General",
                                      createdAt := 0, imageUrl := none }],
                          votes := [], nextId := 0, now := 0 } "p" "a").polls.get ⟨0, hi'⟩)
          = totalVotes (({ polls := [{ id := "p", question := "Q", description := none,
                                       options := [⟨"a", "x", 3⟩], category := "General",
                                       createdAt := 0, imageUrl := none }],
                           votes := [], nextId := 0, now := 0 } : AppState).polls.get
              ⟨0, by decide⟩) + 1 ∧
        lookup ((vote { polls := [{ id := "p", question := "Q", description := none,
                                    options := [⟨"a", "x", 3⟩], category := "General",
                                    createdAt := 0, imageUrl := none }],
                        votes := [], nextId := 0, now := 0 } "p" "a").votes) "p"
          = some "a" :=
  C4_vote_increments _ "p" "a" 0 (by decide) (by decide) (by decide) (by decide)

/-! ## Claim C5 — delete removes poll and ledger entry -/

/-- A state with a stale ledger entry and no polls: reachable from the
empty state by `vote("p", "o")`, which records the entry even though no
poll `"p"` exists. -/
def stateC5 : AppState := { polls := [], votes := [("p", "o")], nextId := 0, now := 0 }

/-- Claim C5 counterexample: the claim says `deletePoll` on a pollId not
present (in the Poll Collection) is a no-op; but on a state with a
stale ledger entry for `"p"` and no poll `"p"`, `deletePoll("p")`
removes the ledger entry, so the state changes. -/
theorem C5_counterexample :
    stateC5.polls = [] ∧
      (deletePoll stateC5 "p").votes = [] ∧
      stateC5.votes ≠ [] := by
  exact ⟨by decide, by decide, by decide⟩

/-- Claim C5 (amended): after `deletePoll(pollId)` the poll with that id
is absent from the Poll Collection AND `pollId` is absent as a key of
the Vote Ledger, both in the same single state transition; re-deleting
the same `pollId` is a no-op; and `deletePoll` on a `pollId` absent
from the collection *and from the ledger* is a no-op (when a stale
ledger entry exists for a pollId with no poll, `deletePoll` still
removes that entry). -/
theorem C5_amended (s : AppState) (pid : String) :
    (∀ p ∈ (deletePoll s pid).polls, p.id ≠ pid) ∧
      lookup (deletePoll s pid).votes pid = none ∧
      deletePoll (deletePoll s pid) pid = deletePoll s pid ∧
      ((∀ p ∈ s.polls, p.id ≠ pid) → lookup s.votes pid = none →
        deletePoll s pid = s) := by
  refine ⟨?_, lookup_eraseKey_self _ _, ?_, ?_⟩
  · intro p hp
    have hmem := List.mem_filter.mp hp
    simpa using hmem.2
  · simp only [deletePoll]
    rw [List.filter_filter, eraseKey_eraseKey]
    simp
  · intro hpoll hvotes
    simp only [deletePoll]
    rw [List.filter_eq_self.mpr (fun p hp => by simpa using hpoll p hp),
      eraseKey_of_lookup_none _ _ hvotes]

/-- Claim C5 witness: deleting an id absent from both stores. -/
theorem C5_witness : deletePoll initState "z" = initState :=
  (C5_amended initState "z").2.2.2 (by simp [initState]) (by decide)

/-! ## Claim C6 — reachable-state invariants -/

/-- Invariant carried through every operation: each option id in the
collection was produced by `uid` at a counter value below `nextId`, and
the option ids inside each poll are pairwise distinct. -/
def FreshIds (s : AppState) : Prop :=
  ∀ p ∈ s.polls,
    (∀ o ∈ p.options, ∃ k, k < s.nextId ∧ o.id = uid k) ∧
      (p.options.map Opt.id).Nodup

theorem freshIds_init : FreshIds initState := by
  intro p hp
  simp [initState] at hp

theorem freshIds_createPoll (s : AppState) (d : Draft) (h : FreshIds s) :
    FreshIds (createPoll s d) := by
  cases hq : d.question with
  | none => simpa [createPoll, hq] using h
  | some q =>
    cases ho : d.options with
    | none => simpa [createPoll, hq, ho] using h
    | some opts =>
      by_cases hcond : q = "" ∨ opts.length < 2
      · simpa [createPoll, hq, ho, hcond] using h
      · have hstep : createPoll s d =
            { s with polls := newPoll s d q opts :: s.polls
                     nextId := s.nextId + opts.length + 1 } := by
          simp only [createPoll, hq, ho, if_neg hcond]
        rw [hstep]
        intro p hp
        dsimp only at hp ⊢
        rcases List.mem_cons.mp hp with rfl | hp
        · constructor
          · intro o hoo
            simp only [newPoll, cleanOptions] at hoo
            have hmem := List.mem_filter.mp hoo
            obtain ⟨io, hio, rfl⟩ := List.mem_map.mp hmem.1
            refine ⟨s.nextId + io.1, ?_, rfl⟩
            have hfst : io.1 ∈ opts.enum.map Prod.fst := List.mem_map_of_mem _ hio
            rw [List.enum_map_fst] at hfst
            have := List.mem_range.mp hfst
            omega
          · simp only [newPoll, cleanOptions]
            have hsub : (((opts.enum.map (fun io =>
                ({ id := uid (s.nextId + io.1), text := io.2.text,
                   votes := 0 } : Opt))).filter
                  (fun o => 0 < (jsTrim o.text).length)).map Opt.id).Sublist
                ((opts.enum.map (fun io =>
                  ({ id := uid (s.nextId + io.1), text := io.2.text,
                     votes := 0 } : Opt))).map Opt.id) :=
              List.Sublist.map _ (List.filter_sublist _)
            refine List.Nodup.sublist hsub ?_
            rw [List.map_map]
            rw [show ((Opt.id ∘ fun io =>
                ({ id := uid (s.nextId + io.1), text := io.2.text,
                   votes := 0 } : Opt)) : Nat × Opt → String)
              = ((fun i => uid (s.nextId + i)) ∘ Prod.fst) from rfl]
            rw [← List.map_map, List.enum_map_fst]
            refine List.Nodup.map ?_ (List.nodup_range _)
            intro a b hab
            have := uid_injective hab
            omega
        · have hold := h p hp
          refine ⟨fun o hoo => ?_, hold.2⟩
          obtain ⟨k, hk, hid⟩ := hold.1 o hoo
          exact ⟨k, by omega, hid⟩

theorem freshIds_vote (s : AppState) (pid oid : String) (h : FreshIds s) :
    FreshIds (vote s pid oid) := by
  by_cases hg : truthy (lookup s.votes pid)
  · simpa [vote, hg] using h
  · have hstep : vote s pid oid =
        { s with
          polls := s.polls.map (fun p =>
            if p.id ≠ pid then p
            else { p with options := p.options.map (fun o =>
              if o.id = oid then { o with votes := o.votes + 1 } else o) })
          votes := setKey s.votes pid oid } := by
      simp only [vote, if_neg hg]
    rw [hstep]
    intro p' hp'
    dsimp only at hp' ⊢
    obtain ⟨p, hp, rfl⟩ := List.mem_map.mp hp'
    have hold := h p hp
    by_cases hpid : p.id ≠ pid
    · rw [if_pos hpid]
      exact hold
    · rw [if_neg hpid]
      have hids : (p.options.map (fun o =>
          if o.id = oid then { o with votes := o.votes + 1 } else o)).map Opt.id
            = p.options.map Opt.id := by
        rw [List.map_map]
        refine List.map_congr_left (fun o _ => ?_)
        by_cases hc : o.id = oid <;> simp [hc]
      refine ⟨fun o' ho' => ?_, by simpa [hids] using hold.2⟩
      obtain ⟨o, hoo, rfl⟩ := List.mem_map.mp ho'
      obtain ⟨k, hk, hid⟩ := hold.1 o hoo
      refine ⟨k, hk, ?_⟩
      by_cases hc : o.id = oid <;> simpa [hc] using hid

theorem freshIds_deletePoll (s : AppState) (pid : String) (h : FreshIds s) :
    FreshIds (deletePoll s pid) := by
  intro p hp
  exact h p (List.mem_filter.mp hp).1

theorem freshIds_runOps (ops : List Op) (s : AppState) (h : FreshIds s) :
    FreshIds (runOps s ops) := by
  induction ops generalizing s with
  | nil => exact h
  | cons op rest ih =>
    refine ih _ ?_
    cases op with
    | create d => exact freshIds_createPoll s d h
    | castVote pid oid => exact freshIds_vote s pid oid h
    | remove pid => exact freshIds_deletePoll s pid h

/-- Claim C6 counterexample: the state reached from the empty collection
by the single operation `createPoll({question: "Q", options: ["a", " "]})`
contains a poll with only one option, violating the claimed
"at least 2 options" invariant. -/
theorem C6_counterexample :
    (runOps initState
        [Op.create ⟨some "Q", some [⟨"", "a", 0⟩, ⟨"", " ", 0⟩], none, none, none⟩]
      ).polls.length = 1 ∧
      (runOps initState
        [Op.create ⟨some "Q", some [⟨"", "a", 0⟩, ⟨"", " ", 0⟩], none, none, none⟩]
      ).polls.headI.options.length = 1 := by
  exact ⟨by decide, by decide⟩

/-- Claim C6 (amended): in every state reachable from the empty Poll
Collection by createPoll/vote/deletePoll operations, the option ids
within each poll are pairwise distinct (given fresh identifier
generation); but a reachable poll may have fewer than 2 options,
because `createPoll` checks the raw option count before dropping
blank-after-trim options. -/
theorem C6_amended (ops : List Op) (p : Poll)
    (hp : p ∈ (runOps initState ops).polls) :
    (p.options.map Opt.id).Nodup :=
  ((freshIds_runOps ops initState freshIds_init) p hp).2

/-- Claim C6 witness: the poll created by
`createPoll({question: "Q", options: ["a","b"]})` on the empty state. -/
theorem C6_witness :
    ((⟨"iii", "Q", none, [⟨"i", "a", 0⟩, ⟨"ii", "b", 0⟩], "General", 0,
        none⟩ : Poll).options.map Opt.id).Nodup :=
  C6_amended
    [Op.create ⟨some "Q", some [⟨"", "a", 0⟩, ⟨"", "b", 0⟩], none, none, none⟩]
    _ (by decide)

/-! ## Claim C7 — the result calculator -/

/-- Claim C7 counterexample: the claim says `percentage(v, t)` equals
round-half-up of the exact ratio for all non-negative integers; but the
code computes in binary64, and at `v = 23, t = 40` the double value of
`(23/40)*100` is just below `57.5`, so `Math.round` gives `57` while
exact round-half-up of `57.5` gives `58`. -/
theorem C7_counterexample :
    pct 23 40 ≠ pctSpec 23 40 ∧ pct 23 40 = 57 ∧ pctSpec 23 40 = 58 := by
  exact ⟨by decide, by decide, by decide⟩

/-- Claim C7 (amended): `percentage(optionVotes, totalVotes)` is the
binary64 evaluation of `Math.round((optionVotes / totalVotes) * 100)`;
it equals exactly 0 whenever `totalVotes = 0` (in particular
`percentage(0,0) = 0`), and on the spec's example votes `[42, 58, 11]`
(total 111) it yields `[38, 52, 10]`, agreeing there with exact
round-half-up; but it does not equal exact round-half-up for every
input (e.g. `percentage(23, 40) = 57`, not 58). -/
theorem C7_amended :
    (∀ v : Nat, pct v 0 = 0) ∧
      pct 0 0 = 0 ∧
      pct 42 111 = 38 ∧ pct 58 111 = 52 ∧ pct 11 111 = 10 ∧
      pctSpec 42 111 = 38 ∧ pctSpec 58 111 = 52 ∧ pctSpec 11 111 = 10 := by
  refine ⟨fun v => rfl, by decide, by decide, by decide, by decide,
    by decide, by decide, by decide⟩

/-! ## Claim C8 — persistence round-trip and corruption tolerance -/

theorem decodeOpt_encodeOpt (o : Opt) : decodeOpt (encodeOpt o) = some o := by
  simp [encodeOpt, decodeOpt, jlookup]

theorem decodeOptList_map (l : List Opt) :
    decodeOptList (l.map encodeOpt) = some l := by
  induction l with
  | nil => rfl
  | cons o rest ih => simp [decodeOptList, decodeOpt_encodeOpt, ih]

theorem decodePoll_encodePoll (p : Poll) : decodePoll (encodePoll p) = some p := by
  obtain ⟨i, q, d, os, c, t, u⟩ := p
  cases d <;> cases u <;>
    simp [encodePoll, decodePoll, jlookup, decodeOptList_map]

theorem decodePollList_map (l : List Poll) :
    decodePollList (l.map encodePoll) = some l := by
  induction l with
  | nil => rfl
  | cons p rest ih => simp [decodePollList, decodePoll_encodePoll, ih]

theorem decodeVoteList_map (l : List (String × String)) :
    decodeVoteList (l.map (fun kv => (kv.1, Json.str kv.2))) = some l := by
  induction l with
  | nil => rfl
  | cons kv rest ih =>
    obtain ⟨k, v⟩ := kv
    simp [decodeVoteList, ih]

/-- Claim C8 counterexample: the claim says `loadPolls` returns an empty
sequence whenever the stored text fails to parse as valid Poll data.
The text `"42"` is valid JSON but not valid Poll data, yet the code
(`JSON.parse` + an unchecked `as Poll[]` cast) returns the parsed
number unchanged — not an empty sequence. -/
theorem C8_counterexample :
    loadPolls { pollsKey := some (StoredText.parsed (Json.num 42)), votesKey := none }
        = Json.num 42 ∧
      decodePolls (Json.num 42) = none ∧
      Json.num 42 ≠ encodePolls [] := by
  refine ⟨rfl, rfl, fun h => Json.noConfusion h⟩

/-- Claim C8 (amended): `loadPolls` returns the previously saved Poll
Collection when one was saved, and returns an empty sequence — never an
error — when no data exists or the stored text is not syntactically
valid JSON; stored text that parses as JSON but is not valid Poll data
is returned as parsed, without validation.  `loadVotes` behaves
symmetrically for the Vote Ledger. -/
theorem C8_amended (st : Storage) (X : List Poll) (V : List (String × String)) :
    decodePolls (loadPolls (savePolls X st)) = some X ∧
      decodeVotes (loadVotes (saveVotes V st)) = some V ∧
      loadPolls { pollsKey := none, votesKey := st.votesKey } = encodePolls [] ∧
      loadPolls { pollsKey := some StoredText.unparseable, votesKey := st.votesKey }
        = encodePolls [] ∧
      loadVotes { pollsKey := st.pollsKey, votesKey := none } = encodeVotes [] ∧
      loadVotes { pollsKey := st.pollsKey, votesKey := some StoredText.unparseable }
        = encodeVotes [] := by
  refine ⟨?_, ?_, rfl, rfl, rfl, rfl⟩
  · simp [savePolls, loadPolls, decodePolls, encodePolls, decodePollList_map]
  · simp [saveVotes, loadVotes, decodeVotes, encodeVotes, decodeVoteList_map]

/-! ## Claim C9 — the filter derivation -/

/-- Claim C9: `filtered` keeps a poll iff (the category filter is
`"All"` or the poll's category equals it) and (the search string is
empty or its lowercasing occurs inside the lowercased question),
preserves the collection's order (the result is a sublist of the
input), and `filtered(polls, "All", "")` returns all polls in their
original order; filtering with zero matches yields `[]` by totality of
`List.filter`, never an error. -/
theorem C9_filter (polls : List Poll) (cf q : String) :
    filtered polls cf q
        = polls.filter (fun p => (cf == "All" || p.category == cf) &&
            jsIncludes (jsToLower p.question) (jsToLower q)) ∧
      (filtered polls cf q).Sublist polls ∧
      (∀ p, p ∈ filtered polls cf q ↔
        p ∈ polls ∧ (cf = "All" ∨ p.category = cf) ∧
          (q = "" ∨ (jsToLower q).data <:+: (jsToLower p.question).data)) ∧
      filtered polls "All" "" = polls := by
  refine ⟨?_, ?_, ?_, ?_⟩
  · rw [filtered, List.filter_filter]
    exact List.filter_congr (fun p _ => Bool.and_comm _ _)
  · exact (List.filter_sublist _).trans (List.filter_sublist _)
  · intro p
    rw [filtered]
    simp only [List.mem_filter]
    constructor
    · rintro ⟨⟨hmem, hcat⟩, hsub⟩
      refine ⟨hmem, ?_, Or.inr ?_⟩
      · simpa using hcat
      · exact (listSub_iff _ _).mp hsub
    · rintro ⟨hmem, hcat, hsub⟩
      refine ⟨⟨hmem, by simpa using hcat⟩, ?_⟩
      rcases hsub with rfl | hsub
      · exact (listSub_iff _ _).mpr List.nil_infix
      · exact (listSub_iff _ _).mpr hsub
  · rw [filtered]
    have h1 : polls.filter (fun p => ("All" == "All" || p.category == "All")) = polls :=
      List.filter_eq_self.mpr (fun p _ => by
        rw [show ("All" == "All") = true from rfl, Bool.true_or])
    rw [h1]
    refine List.filter_eq_self.mpr (fun p _ => ?_)
    show listSub (jsToLower "").data (jsToLower p.question).data = true
    exact (listSub_iff _ _).mpr List.nil_infix

/-! ## Claim C10 — frame property of vote -/

/-- Claim C10: when the Vote Ledger has no entry for `pollId`,
`vote(pollId, optionId)` preserves the number and order of polls, every
non-`votes` field of every poll and option (ids, question, description,
category, creation time, image, option text), the number and order of
each poll's options, and every other ledger entry; the only `votes`
fields that change are those of options with id `optionId` inside polls
with id `pollId`, which are incremented by exactly one. -/
theorem C10_vote_frame (s : AppState) (pid oid : String)
    (h : lookup s.votes pid = none) :
    (vote s pid oid).polls.length = s.polls.length ∧
      (∀ (i : Nat) (hi : i < s.polls.length)
          (hi' : i < (vote s pid oid).polls.length),
        ((vote s pid oid).polls.get ⟨i, hi'⟩).id = (s.polls.get ⟨i, hi⟩).id ∧
          ((vote s pid oid).polls.get ⟨i, hi'⟩).question
            = (s.polls.get ⟨i, hi⟩).question ∧
          ((vote s pid oid).polls.get ⟨i, hi'⟩).description
            = (s.polls.get ⟨i, hi⟩).description ∧
          ((vote s pid oid).polls.get ⟨i, hi'⟩).category
            = (s.polls.get ⟨i, hi⟩).category ∧
          ((vote s pid oid).polls.get ⟨i, hi'⟩).createdAt
            = (s.polls.get ⟨i, hi⟩).createdAt ∧
          ((vote s pid oid).polls.get ⟨i, hi'⟩).imageUrl
            = (s.polls.get ⟨i, hi⟩).imageUrl ∧
          ((vote s pid oid).polls.get ⟨i, hi'⟩).options.length
            = (s.polls.get ⟨i, hi⟩).options.length ∧
          (∀ (j : Nat) (hj : j < (s.polls.get ⟨i, hi⟩).options.length)
              (hj' : j < ((vote s pid oid).polls.get ⟨i, hi'⟩).options.length),
            (((vote s pid oid).polls.get ⟨i, hi'⟩).options.get ⟨j, hj'⟩).id
                = ((s.polls.get ⟨i, hi⟩).options.get ⟨j, hj⟩).id ∧
              (((vote s pid oid).polls.get ⟨i, hi'⟩).options.get ⟨j, hj'⟩).text
                = ((s.polls.get ⟨i, hi⟩).options.get ⟨j, hj⟩).text ∧
              ((s.polls.get ⟨i, hi⟩).id = pid ∧
                  ((s.polls.get ⟨i, hi⟩).options.get ⟨j, hj⟩).id = oid →
                (((vote s pid oid).polls.get ⟨i, hi'⟩).options.get ⟨j, hj'⟩).votes
                  = ((s.polls.get ⟨i, hi⟩).options.get ⟨j, hj⟩).votes + 1) ∧
              (¬((s.polls.get ⟨i, hi⟩).id = pid ∧
                  ((s.polls.get ⟨i, hi⟩).options.get ⟨j, hj⟩).id = oid) →
                (((vote s pid oid).polls.get ⟨i, hi'⟩).options.get ⟨j, hj'⟩).votes
                  = ((s.polls.get ⟨i, hi⟩).options.get ⟨j, hj⟩).votes))) ∧
      lookup (vote s pid oid).votes pid = some oid ∧
      (∀ k, k ≠ pid → lookup (vote s pid oid).votes k = lookup s.votes k) := by
  rw [vote_of_lookup_none s pid oid h]
  refine ⟨by simp, ?_, lookup_setKey_self _ _ _,
    fun k hk => lookup_setKey_of_ne _ _ _ _ hk⟩
  intro i hi hi'
  simp only [List.get_eq_getElem, List.getElem_map]
  by_cases hpid : (s.polls[i]).id = pid
  · have hcond : ¬(s.polls[i].id ≠ pid) := by simp [hpid]
    simp only [if_neg hcond, List.length_map]
    refine ⟨by trivial, by trivial, by trivial, by trivial, by trivial,
      by trivial, by trivial, ?_⟩
    intro j hj hj'
    simp only [List.getElem_map]
    by_cases hoid : ((s.polls[i]).options[j]).id = oid
    · simp only [if_pos hoid]
      exact ⟨by trivial, by trivial, fun _ => trivial, fun hcon => absurd ⟨hpid, hoid⟩ hcon⟩
    · simp only [if_neg hoid]
      exact ⟨by trivial, by trivial, fun hcon => absurd hcon.2 hoid, fun _ => trivial⟩
  · simp only [if_pos hpid]
    refine ⟨by trivial, by trivial, by trivial, by trivial, by trivial,
      by trivial, by trivial, ?_⟩
    intro j hj hj'
    exact ⟨by trivial, by trivial, fun hcon => absurd hcon.1 hpid, fun _ => trivial⟩

/-- Claim C10 witness: one poll with two options, a fresh ledger. -/
theorem C10_witness :
    (vote { polls := [{ id := "p", question := "Q", description := none,
                        options := [⟨"a", "x", 4⟩, ⟨"b", "y", 7⟩],
                        category := "General", createdAt := 0, imageUrl := none }],
            votes := [("r", "z")], nextId := 0, now := 0 } "p" "a").polls.length
        = ({ polls := [{ id := "p", question := "Q", description := none,
                         options := [⟨"a", "x", 4⟩, ⟨"b", "y", 7⟩],
                         category := "General", createdAt := 0, imageUrl := none }],
             votes := [("r", "z")], nextId := 0, now := 0 } : AppState).polls.length ∧
      lookup (vote { polls := [{ id := "p", question := "Q", description := none,
                                 options := [⟨"a", "x", 4⟩, ⟨"b", "y", 7⟩],
                                 category := "General", createdAt := 0,
                                 imageUrl := none }],
                     votes := [("r", "z")], nextId := 0, now := 0 } "p" "a").votes "p"
        = some "a" :=
  have hfull := C10_vote_frame
    { polls := [{ id := "p", question := "Q", description := none,
                  options := [⟨"a", "x", 4⟩, ⟨"b", "y", 7⟩],
                  category := "General", createdAt := 0, imageUrl := none }],
      votes := [("r", "z")], nextId := 0, now := 0 } "p" "a" (by decide)
  ⟨hfull.1, hfull.2.2.1⟩
